import Mathlib

/-!
Verification of the reconciliation logic of the kyb-pdf-parser repository.

The reconciler (`performReconciliation` in `src/next.config.ts`, the
route-handler section) receives extracted financial data whose balances are
`number | null` and whose transactions carry loosely-typed `amount` fields.
It filters transactions to those whose amount is a number other than `NaN`,
sums them, rounds the calculated and stated ending balances to two decimal
places, and compares the (rounded) difference against a 1.5-cent tolerance.

JavaScript numbers are modelled by `EV`: an exact rational for the finite
case (an idealised decimal-safe numeric, as the specification's summation
clause directs) plus the special values `Infinity`, `-Infinity` and `NaN`
with their IEEE-754 propagation rules, which the source can reach because
an `amount` equal to `Infinity` passes the `typeof`/`isNaN` filter.
`toFixed(2)`/`parseFloat` rounding is modelled as round-half-away-from-zero
on the rational part (the specification's stated rounding policy) and as
the identity on the special values, matching `parseFloat("Infinity")` and
`parseFloat("NaN")`.
-/

namespace KybPdf

/-- A JavaScript `number` value: an exact rational for the finite case, or
one of the special values `Infinity`, `-Infinity`, `NaN`. -/
inductive EV where
  | fin (q : ℚ)
  | posInf
  | negInf
  | nan
  deriving DecidableEq, Repr

/-- JavaScript unary minus on numbers. -/
def evNeg : EV → EV
  | .fin q => .fin (-q)
  | .posInf => .negInf
  | .negInf => .posInf
  | .nan => .nan

/-- JavaScript `+` on numbers (IEEE-754 propagation of the special values;
the finite case is exact rational addition). -/
def evAdd : EV → EV → EV
  | .fin a, .fin b => .fin (a + b)
  | .fin _, .posInf => .posInf
  | .fin _, .negInf => .negInf
  | .fin _, .nan => .nan
  | .posInf, .fin _ => .posInf
  | .posInf, .posInf => .posInf
  | .posInf, .negInf => .nan
  | .posInf, .nan => .nan
  | .negInf, .fin _ => .negInf
  | .negInf, .posInf => .nan
  | .negInf, .negInf => .negInf
  | .negInf, .nan => .nan
  | .nan, _ => .nan

/-- JavaScript `-` on numbers. -/
def evSub (a b : EV) : EV := evAdd a (evNeg b)

/-- JavaScript `Math.abs`. -/
def evAbs : EV → EV
  | .fin q => .fin |q|
  | .posInf => .posInf
  | .negInf => .posInf
  | .nan => .nan

/-- JavaScript `<` between a number value and a finite literal
(`NaN < c` and `Infinity < c` are false). -/
def evLtQ : EV → ℚ → Bool
  | .fin q, c => decide (q < c)
  | .posInf, _ => false
  | .negInf, _ => true
  | .nan, _ => false

/-- `parseFloat(q.toFixed(2))` on a finite value: round to two decimal
places, half away from zero. -/
def round2 (q : ℚ) : ℚ :=
  if 0 ≤ q then (⌊q * 100 + 1 / 2⌋ : ℚ) / 100
  else -((⌊-q * 100 + 1 / 2⌋ : ℚ) / 100)

/-- `parseFloat(v.toFixed(2))` on any number value: the special values
round-trip unchanged through `toFixed`/`parseFloat`. -/
def round2EV : EV → EV
  | .fin q => .fin (round2 q)
  | .posInf => .posInf
  | .negInf => .negInf
  | .nan => .nan

/-- A loosely-typed JavaScript value sitting in a transaction's `amount`
field: either a number or anything else (`undefined`, a string, `null`, an
object, ...). -/
inductive JSVal where
  | num (v : EV)
  | notNum
  deriving DecidableEq, Repr

/-- The `Transaction` interface of the source: `date` and `description` are
opaque strings, `amount` is a loosely-typed value that is only trusted
after the reconciler's own filter. -/
structure Transaction where
  date : String
  description : String
  amount : JSVal
  deriving DecidableEq, Repr

/-- The reconciler's validity filter on an amount, from the source:
`typeof tx.amount === 'number' && !isNaN(tx.amount)`.  Note that
`Infinity` passes this test. -/
def isNumberNonNaN : JSVal → Bool
  | .num .nan => false
  | .num _ => true
  | .notNum => false

/-- The numeric value of an amount that passed the filter (total function;
on a non-number it yields `NaN`, which the filter never lets through). -/
def numValue : JSVal → EV
  | .num v => v
  | .notNum => .nan

/-- The fields of `Omit<ExtractedData, 'rawPdfText'>` that the reconciler
reads: balances are `number | null`, and the transactions array is guarded
by `!data.transactions`, so it may be absent. -/
structure ExtractedFinancials where
  startingBalance : Option EV
  endingBalance : Option EV
  transactions : Option (List Transaction)
  deriving DecidableEq, Repr

/-- The `ReconciliationResult` interface of the source. -/
structure ReconciliationResult where
  calculatedEndingBalance : Option EV
  difference : Option EV
  «matches» : Bool
  deriving DecidableEq, Repr

/-- `data.transactions.filter(tx => typeof tx.amount === 'number' && !isNaN(tx.amount))`. -/
def validTransactions (txs : List Transaction) : List Transaction :=
  txs.filter fun tx => isNumberNonNaN tx.amount

/-- `validTransactions.reduce((sum, tx) => sum + tx.amount, 0)`. -/
def sumOfTransactions (txs : List Transaction) : EV :=
  (validTransactions txs).foldl (fun sum tx => evAdd sum (numValue tx.amount)) (.fin 0)

/-- `performReconciliation` from `src/next.config.ts` (lines 403-428):
short-circuit on missing data, filter, sum, round, difference, tolerance. -/
def performReconciliation (data : ExtractedFinancials) : ReconciliationResult :=
  match data.startingBalance, data.endingBalance, data.transactions with
  | some startingBalance, some endingBalance, some txs =>
    let calculatedEndingBalance := round2EV (evAdd startingBalance (sumOfTransactions txs))
    let statedEndingBalance := round2EV endingBalance
    let difference := round2EV (evSub statedEndingBalance calculatedEndingBalance)
    let m := evLtQ (evAbs difference) (3 / 200)
    { calculatedEndingBalance := some calculatedEndingBalance
      difference := some difference
      «matches» := m }
  | _, _, _ =>
    { calculatedEndingBalance := none
      difference := none
      «matches» := false }

/-- Spec-side reading of `|difference| < 0.015` as a proposition about a
number value: the value is finite and its absolute value is below the
tolerance. -/
def evAbsLt (v : EV) (c : ℚ) : Prop := ∃ q : ℚ, v = .fin q ∧ |q| < c

/-- Spec-side filter for claim C3: keep exactly the transactions whose
amount is a *finite* number (so `NaN`, `Infinity`, `-Infinity` and
non-numbers are all dropped). -/
def hasFiniteAmount : JSVal → Bool
  | .num (.fin _) => true
  | _ => false

/-- The sub-list of transactions with finite numeric amounts (spec's words
for claim C3). -/
def finiteTransactions (txs : List Transaction) : List Transaction :=
  txs.filter fun tx => hasFiniteAmount tx.amount

/-! ### Helper lemmas -/

theorem performReconciliation_some (s e : EV) (txs : List Transaction) :
    performReconciliation ⟨some s, some e, some txs⟩ =
      { calculatedEndingBalance := some (round2EV (evAdd s (sumOfTransactions txs)))
        difference := some (round2EV (evSub (round2EV e)
          (round2EV (evAdd s (sumOfTransactions txs)))))
        «matches» := evLtQ (evAbs (round2EV (evSub (round2EV e)
          (round2EV (evAdd s (sumOfTransactions txs)))))) (3 / 200) } := rfl

theorem performReconciliation_short_circuit (data : ExtractedFinancials)
    (h : data.startingBalance = none ∨ data.endingBalance = none ∨
      data.transactions = none) :
    performReconciliation data =
      { calculatedEndingBalance := none, difference := none, «matches» := false } := by
  obtain ⟨s, e, txs⟩ := data
  dsimp only at h
  rcases h with h | h | h <;> subst h
  · cases e <;> cases txs <;> rfl
  · cases s <;> cases txs <;> rfl
  · cases s <;> cases e <;> rfl

theorem evAdd_comm (a b : EV) : evAdd a b = evAdd b a := by
  cases a <;> cases b <;> simp [evAdd] <;> ring

theorem evAdd_assoc (a b c : EV) : evAdd (evAdd a b) c = evAdd a (evAdd b c) := by
  cases a <;> cases b <;> cases c <;> simp [evAdd] <;> ring

theorem floor_intCast_add_half (k : ℤ) : ⌊(k : ℚ) + 1 / 2⌋ = k := by
  rw [add_comm, Int.floor_add_int]
  norm_num

theorem round2_zero : round2 0 = 0 := by
  norm_num [round2]

theorem round2_intCents (k : ℤ) : round2 ((k : ℚ) / 100) = (k : ℚ) / 100 := by
  unfold round2
  rcases le_or_lt 0 k with hk | hk
  · rw [if_pos (div_nonneg (by exact_mod_cast hk) (by norm_num))]
    rw [div_mul_cancel₀ _ (by norm_num : (100 : ℚ) ≠ 0), floor_intCast_add_half]
  · have hq : ¬ (0 : ℚ) ≤ (k : ℚ) / 100 := by
      rw [not_le]
      exact div_neg_of_neg_of_pos (by exact_mod_cast hk) (by norm_num)
    have h1 : (-((k : ℚ) / 100) * 100 + 1 / 2 : ℚ) = ((-k : ℤ) : ℚ) + 1 / 2 := by
      push_cast
      ring
    rw [if_neg hq, h1, floor_intCast_add_half]
    push_cast
    ring

theorem round2_form (q : ℚ) : ∃ k : ℤ, round2 q = (k : ℚ) / 100 := by
  unfold round2
  split
  · exact ⟨_, rfl⟩
  · exact ⟨-⌊-q * 100 + 1 / 2⌋, by push_cast; ring⟩

theorem round2_round2 (q : ℚ) : round2 (round2 q) = round2 q := by
  obtain ⟨k, hk⟩ := round2_form q
  rw [hk, round2_intCents]

theorem round2EV_round2EV (v : EV) : round2EV (round2EV v) = round2EV v := by
  cases v <;> simp [round2EV, round2_round2]

theorem evLtQ_abs_iff (v : EV) (c : ℚ) :
    evLtQ (evAbs v) c = true ↔ evAbsLt v c := by
  cases v <;> simp [evLtQ, evAbs, evAbsLt]

theorem validTransactions_idem (txs : List Transaction) :
    validTransactions (validTransactions txs) = validTransactions txs := by
  unfold validTransactions
  rw [List.filter_filter]
  simp

theorem sumOfTransactions_valid (txs : List Transaction) :
    sumOfTransactions (validTransactions txs) = sumOfTransactions txs := by
  unfold sumOfTransactions
  rw [validTransactions_idem]

theorem matches_eq_of_difference (data : ExtractedFinancials) (d : EV)
    (h : (performReconciliation data).difference = some d) :
    (performReconciliation data).«matches» = evLtQ (evAbs d) (3 / 200) := by
  obtain ⟨s, e, txs⟩ := data
  cases s with
  | none => simp [performReconciliation] at h
  | some s =>
    cases e with
    | none => simp [performReconciliation] at h
    | some e =>
      cases txs with
      | none => simp [performReconciliation] at h
      | some txs =>
        rw [performReconciliation_some] at h ⊢
        simp only [Option.some.injEq] at h
        rw [h]

theorem cent_lt_tolerance_iff (k : ℤ) :
    |(k : ℚ) / 100| < 3 / 200 ↔ (k = -1 ∨ k = 0 ∨ k = 1) := by
  have habs : |(k : ℚ) / 100| = ((|k| : ℤ) : ℚ) / 100 := by
    rw [abs_div, Int.cast_abs]
    norm_num
  rw [habs, div_lt_div_iff (by norm_num) (by norm_num)]
  constructor
  · intro h
    have h2 : ((|k| : ℤ) : ℚ) * 200 < 300 := by linarith
    have hk : |k| ≤ 1 := by
      by_contra hc
      push_neg at hc
      have : (2 : ℚ) ≤ ((|k| : ℤ) : ℚ) := by exact_mod_cast hc
      linarith
    rw [abs_le] at hk
    omega
  · rintro (rfl | rfl | rfl) <;> norm_num

theorem cent_eq_iff (k m : ℤ) : (k : ℚ) / 100 = (m : ℚ) / 100 ↔ k = m := by
  constructor
  · intro h
    field_simp at h
    exact_mod_cast h
  · rintro rfl
    rfl

theorem performReconciliation_cases (data : ExtractedFinancials) :
    performReconciliation data =
        { calculatedEndingBalance := none, difference := none,
          «matches» := false } ∨
      ∃ c d m, performReconciliation data =
        { calculatedEndingBalance := some c, difference := some d,
          «matches» := m } := by
  obtain ⟨s, e, txs⟩ := data
  cases s with
  | none => exact Or.inl (performReconciliation_short_circuit _ (Or.inl rfl))
  | some s =>
    cases e with
    | none =>
      exact Or.inl (performReconciliation_short_circuit _ (Or.inr (Or.inl rfl)))
    | some e =>
      cases txs with
      | none =>
        exact Or.inl (performReconciliation_short_circuit _ (Or.inr (Or.inr rfl)))
      | some txs => exact Or.inr ⟨_, _, _, performReconciliation_some s e txs⟩

theorem cent_tolerance_cases (k : ℤ) :
    (decide (|(k : ℚ) / 100| < 3 / 200) = true) ↔
      ((k : ℚ) / 100 = -1 / 100 ∨ (k : ℚ) / 100 = 0 ∨
        (k : ℚ) / 100 = 1 / 100) := by
  rw [decide_eq_true_eq, cent_lt_tolerance_iff]
  have e1 : (k : ℚ) / 100 = -1 / 100 ↔ k = -1 := by
    rw [show (-1 : ℚ) / 100 = ((-1 : ℤ) : ℚ) / 100 by norm_num, cent_eq_iff]
  have e2 : ((k : ℚ) / 100 = 0) ↔ k = 0 := by
    rw [show (0 : ℚ) = ((0 : ℤ) : ℚ) / 100 by norm_num, cent_eq_iff]
  have e3 : (k : ℚ) / 100 = 1 / 100 ↔ k = 1 := by
    rw [show (1 : ℚ) / 100 = ((1 : ℤ) : ℚ) / 100 by norm_num, cent_eq_iff]
  rw [e1, e2, e3]

theorem round2EV_tolerance_iff (v : EV) :
    (evLtQ (evAbs (round2EV v)) (3 / 200) = true) ↔
      (round2EV v = .fin (-1 / 100) ∨ round2EV v = .fin 0 ∨
        round2EV v = .fin (1 / 100)) := by
  cases v with
  | fin q =>
    obtain ⟨k, hk⟩ := round2_form q
    simp only [round2EV, hk, evAbs, evLtQ, EV.fin.injEq]
    exact cent_tolerance_cases k
  | posInf => simp [round2EV, evAbs, evLtQ]
  | negInf => simp [round2EV, evAbs, evLtQ]
  | nan => simp [round2EV, evAbs, evLtQ]

/-! ### Claim theorems -/

/-- C1: for every input in which startingBalance, endingBalance and the
transaction list are all present, the reconciler returns
`calculatedEndingBalance = round2(startingBalance + Σ valid amounts)`,
`difference = round2(round2(endingBalance) − calculatedEndingBalance)`, and
`matches = true` iff `|difference| < 0.015`. -/
theorem reconciliation_formula (s e : EV) (txs : List Transaction) :
    (performReconciliation ⟨some s, some e, some txs⟩).calculatedEndingBalance
        = some (round2EV (evAdd s (sumOfTransactions txs))) ∧
      (performReconciliation ⟨some s, some e, some txs⟩).difference
        = some (round2EV (evSub (round2EV e)
            (round2EV (evAdd s (sumOfTransactions txs))))) ∧
      ((performReconciliation ⟨some s, some e, some txs⟩).«matches» = true ↔
        evAbsLt (round2EV (evSub (round2EV e)
          (round2EV (evAdd s (sumOfTransactions txs))))) (3 / 200)) := by
  refine ⟨rfl, rfl, ?_⟩
  rw [performReconciliation_some]
  exact evLtQ_abs_iff _ _

/-- C2: whenever startingBalance, endingBalance or the transaction sequence
is absent, the reconciler short-circuits to the degraded result: both
numeric fields absent and `matches = false`. -/
theorem reconciliation_missing_data (data : ExtractedFinancials)
    (h : data.startingBalance = none ∨ data.endingBalance = none ∨
      data.transactions = none) :
    performReconciliation data =
      { calculatedEndingBalance := none, difference := none, «matches» := false } :=
  performReconciliation_short_circuit data h

/-- Witness for C2 at a concrete input with an absent starting balance. -/
theorem reconciliation_missing_data_w :
    performReconciliation ⟨none, some (.fin 0), some []⟩ =
      { calculatedEndingBalance := none, difference := none, «matches» := false } :=
  reconciliation_missing_data ⟨none, some (.fin 0), some []⟩ (Or.inl rfl)

/-- C3 counterexample: a transaction whose amount is `Infinity` passes the
source's `typeof tx.amount === 'number' && !isNaN(tx.amount)` filter, so the
result differs from the result on the sub-list of transactions with finite
numeric amounts (here: the empty sub-list). -/
theorem infinite_amount_not_excluded :
    performReconciliation ⟨some (.fin 0), some (.fin 0),
        some [⟨"2024-01-01", "interest", .num .posInf⟩]⟩ ≠
      performReconciliation ⟨some (.fin 0), some (.fin 0),
        some (finiteTransactions [⟨"2024-01-01", "interest", .num .posInf⟩])⟩ := by
  rw [performReconciliation_some, performReconciliation_some]
  simp [sumOfTransactions, validTransactions, finiteTransactions,
    isNumberNonNaN, hasFiniteAmount, numValue, evAdd, evSub, evNeg,
    round2EV, evAbs, evLtQ]

/-- C3 amended: a transaction is excluded from the summation exactly when
its amount is not a number or is `NaN` (`Infinity` is retained), and the
result equals the result on the sub-list of transactions passing that
filter. -/
theorem reconciliation_refilter_invariant (s e : EV) (txs : List Transaction) :
    performReconciliation ⟨some s, some e, some txs⟩ =
      performReconciliation ⟨some s, some e, some (validTransactions txs)⟩ := by
  rw [performReconciliation_some, performReconciliation_some,
    sumOfTransactions_valid]

/-- C4 counterexample: an empty transaction set with matching balances
yields a fully populated, matching result, contradicting the claim that an
empty transaction set is normalized into a non-matching or
data-insufficient result. -/
theorem empty_transactions_can_match :
    performReconciliation ⟨some (.fin 0), some (.fin 0), some []⟩ =
      { calculatedEndingBalance := some (.fin 0), difference := some (.fin 0),
        «matches» := true } := by
  rw [performReconciliation_some]
  simp [sumOfTransactions, validTransactions, evAdd, evSub, evNeg,
    round2EV, evAbs, evLtQ, round2_zero]

/-- C4 amended: every input is normalized into a defined result rather than
a failure — either the data-insufficient result (numeric fields absent,
`matches = false`, for missing balances or a missing transaction list) or a
fully populated result (for any present transaction list, including empty
or malformed ones), which may be matching. -/
theorem reconciliation_normalizes (data : ExtractedFinancials) :
    performReconciliation data =
        { calculatedEndingBalance := none, difference := none,
          «matches» := false } ∨
      ∃ c d m, performReconciliation data =
        { calculatedEndingBalance := some c, difference := some d,
          «matches» := m } :=
  performReconciliation_cases data

/-- C5: with both balances present and the valid transaction amounts summing
exactly to `endingBalance − startingBalance`, the reconciler reports
`difference = 0` and `matches = true`. -/
theorem reconciliation_exact_sum (s e : ℚ) (txs : List Transaction)
    (h : sumOfTransactions txs = .fin (e - s)) :
    (performReconciliation
        ⟨some (.fin s), some (.fin e), some txs⟩).difference = some (.fin 0) ∧
      (performReconciliation
        ⟨some (.fin s), some (.fin e), some txs⟩).«matches» = true := by
  rw [performReconciliation_some, h]
  have h1 : evAdd (EV.fin s) (EV.fin (e - s)) = EV.fin e := by
    simp [evAdd]
  rw [h1]
  have h2 : evSub (round2EV (EV.fin e)) (round2EV (EV.fin e)) = EV.fin 0 := by
    simp [round2EV, evSub, evNeg, evAdd]
  rw [h2]
  constructor
  · simp [round2EV, round2_zero]
  · simp only [round2EV, round2_zero, evAbs, evLtQ, abs_zero]
    norm_num

/-- Witness for C5: one five-unit deposit turning a zero starting balance
into a five-unit ending balance. -/
theorem reconciliation_exact_sum_w :
    (performReconciliation ⟨some (.fin 0), some (.fin 5),
        some [⟨"2024-01-02", "deposit", .num (.fin 5)⟩]⟩).difference
        = some (.fin 0) ∧
      (performReconciliation ⟨some (.fin 0), some (.fin 5),
        some [⟨"2024-01-02", "deposit", .num (.fin 5)⟩]⟩).«matches» = true :=
  reconciliation_exact_sum 0 5 [⟨"2024-01-02", "deposit", .num (.fin 5)⟩]
    (by norm_num [sumOfTransactions, validTransactions, isNumberNonNaN,
      numValue, evAdd])

/-- C6 counterexample: the result's `difference` field is always a whole
number of cents, so no reconciliation produces a difference of exactly
0.0149 or 0.015; reading "difference" as the underlying discrepancy
`endingBalance − (startingBalance + Σ amounts)` instead, both halves of the
claim fail: a discrepancy of exactly 0.0149 can yield `matches = false`
(second input) and a discrepancy of exactly 0.015 can yield
`matches = true` (first input). -/
theorem tolerance_boundary_cex :
    ((1 : ℚ) / 50 - ((1 : ℚ) / 200 + 0) = 15 / 1000 ∧
      performReconciliation
          ⟨some (.fin (1 / 200)), some (.fin (1 / 50)), some []⟩ =
        { calculatedEndingBalance := some (.fin (1 / 100)),
          difference := some (.fin (1 / 100)), «matches» := true }) ∧
    ((198 : ℚ) / 10000 - ((49 : ℚ) / 10000 + 0) = 149 / 10000 ∧
      performReconciliation
          ⟨some (.fin (49 / 10000)), some (.fin (198 / 10000)), some []⟩ =
        { calculatedEndingBalance := some (.fin 0),
          difference := some (.fin (2 / 100)), «matches» := false }) := by
  refine ⟨⟨by norm_num, ?_⟩, ⟨by norm_num, ?_⟩⟩
  · rw [performReconciliation_some]
    norm_num [sumOfTransactions, validTransactions, evAdd, evSub, evNeg,
      round2EV, round2, evAbs, evLtQ, abs_of_nonneg]
  · rw [performReconciliation_some]
    norm_num [sumOfTransactions, validTransactions, evAdd, evSub, evNeg,
      round2EV, round2, evAbs, evLtQ, abs_of_nonneg]

/-- C6 amended: a reconciliation whose difference is exactly 0.01 (the
closest attainable value below the tolerance) yields `matches = true`, and
one whose difference is exactly 0.02 (the closest attainable value above
it) yields `matches = false`, for every pair of inputs producing those
difference values. -/
theorem matches_at_exact_difference (d₁ d₂ : ExtractedFinancials)
    (h₁ : (performReconciliation d₁).difference = some (.fin (1 / 100)))
    (h₂ : (performReconciliation d₂).difference = some (.fin (2 / 100))) :
    (performReconciliation d₁).«matches» = true ∧
      (performReconciliation d₂).«matches» = false := by
  rw [matches_eq_of_difference d₁ _ h₁, matches_eq_of_difference d₂ _ h₂]
  constructor
  · simp only [evAbs, evLtQ, decide_eq_true_eq]
    norm_num [abs_of_nonneg]
  · simp only [evAbs, evLtQ, decide_eq_false_iff_not]
    norm_num [abs_of_nonneg]

/-- Witness for C6 amended: inputs realizing differences of exactly 0.01
and 0.02. -/
theorem matches_at_exact_difference_w :
    (performReconciliation
        ⟨some (.fin 0), some (.fin (1 / 100)), some []⟩).«matches» = true ∧
      (performReconciliation
        ⟨some (.fin 0), some (.fin (2 / 100)), some []⟩).«matches» = false :=
  matches_at_exact_difference
    ⟨some (.fin 0), some (.fin (1 / 100)), some []⟩
    ⟨some (.fin 0), some (.fin (2 / 100)), some []⟩
    (by rw [performReconciliation_some]
        norm_num [sumOfTransactions, validTransactions, evAdd, evSub, evNeg,
          round2EV, round2])
    (by rw [performReconciliation_some]
        norm_num [sumOfTransactions, validTransactions, evAdd, evSub, evNeg,
          round2EV, round2])

/-- C7: the reconciler's output is invariant under permutation of the
transaction list — the summation, and hence every field of the result, is
independent of transaction order. -/
theorem reconciliation_perm_invariant (s e : EV) (txs txs' : List Transaction)
    (h : txs.Perm txs') :
    performReconciliation ⟨some s, some e, some txs⟩ =
      performReconciliation ⟨some s, some e, some txs'⟩ := by
  have hsum : sumOfTransactions txs = sumOfTransactions txs' := by
    unfold sumOfTransactions validTransactions
    exact (h.filter _).foldl_eq'
      (fun x _ y _ z => by
        rw [evAdd_assoc, evAdd_assoc, evAdd_comm (numValue x.amount)]) _
  rw [performReconciliation_some, performReconciliation_some, hsum]

/-- Witness for C7: swapping two transactions leaves the result unchanged. -/
theorem reconciliation_perm_invariant_w :
    performReconciliation ⟨some (.fin 0), some (.fin 0),
        some [⟨"2024-01-02", "deposit", .num (.fin 1)⟩,
              ⟨"2024-01-03", "withdrawal", .num (.fin (-2))⟩]⟩ =
      performReconciliation ⟨some (.fin 0), some (.fin 0),
        some [⟨"2024-01-03", "withdrawal", .num (.fin (-2))⟩,
              ⟨"2024-01-02", "deposit", .num (.fin 1)⟩]⟩ :=
  reconciliation_perm_invariant (.fin 0) (.fin 0) _ _
    (List.Perm.swap
      (Transaction.mk "2024-01-03" "withdrawal" (.num (.fin (-2))))
      (Transaction.mk "2024-01-02" "deposit" (.num (.fin 1))) [])

/-- C8: the reconciler is total — every input, including inputs whose
transactions all carry invalid amounts, yields a defined result, and an
all-invalid transaction list behaves exactly like the empty one. -/
theorem reconciliation_total (data : ExtractedFinancials) (s e : EV)
    (txs : List Transaction)
    (h : ∀ tx ∈ txs, isNumberNonNaN tx.amount = false) :
    (∃ r : ReconciliationResult, performReconciliation data = r) ∧
      performReconciliation ⟨some s, some e, some txs⟩ =
        performReconciliation ⟨some s, some e, some ([] : List Transaction)⟩ := by
  refine ⟨⟨_, rfl⟩, ?_⟩
  have hnil : validTransactions txs = [] := by
    rw [validTransactions, List.filter_eq_nil_iff]
    intro a ha
    simp [h a ha]
  have hsum : sumOfTransactions txs = sumOfTransactions [] := by
    unfold sumOfTransactions
    rw [hnil]
    rfl
  rw [performReconciliation_some, performReconciliation_some, hsum]

/-- Witness for C8: a transaction list whose single amount is not a number
behaves like the empty list, and an arbitrary degenerate input yields a
defined result. -/
theorem reconciliation_total_w :
    (∃ r : ReconciliationResult,
        performReconciliation ⟨none, none, none⟩ = r) ∧
      performReconciliation ⟨some (.fin 1), some (.fin 2),
          some [⟨"2024-01-04", "garbled", .notNum⟩]⟩ =
        performReconciliation ⟨some (.fin 1), some (.fin 2),
          some ([] : List Transaction)⟩ :=
  reconciliation_total ⟨none, none, none⟩ (.fin 1) (.fin 2)
    [⟨"2024-01-04", "garbled", .notNum⟩]
    (by intro tx htx
        rw [List.mem_singleton] at htx
        subst htx
        rfl)

/-- C9: in every result, the two numeric fields are absent together, absent
numeric fields force `matches = false`, and a result never mixes an absent
numeric field with a present one. -/
theorem result_shape_invariant (data : ExtractedFinancials) :
    ((performReconciliation data).calculatedEndingBalance = none ∧
        (performReconciliation data).difference = none ∧
        (performReconciliation data).«matches» = false) ∨
      ∃ c d, (performReconciliation data).calculatedEndingBalance = some c ∧
        (performReconciliation data).difference = some d := by
  rcases performReconciliation_cases data with h | ⟨c, d, m, h⟩
  · exact Or.inl (by rw [h]; exact ⟨rfl, rfl, rfl⟩)
  · exact Or.inr ⟨c, d, by rw [h], by rw [h]⟩

/-- C10: with both balances and the transaction list present, the returned
difference is a value fixed by two-decimal rounding, and `matches` holds
iff that difference is exactly −0.01, 0, or 0.01 — the stated 1.5-cent
tolerance is effectively a one-cent tolerance after rounding. -/
theorem difference_is_whole_cents (s e : EV) (txs : List Transaction) :
    ∃ d : EV,
      (performReconciliation ⟨some s, some e, some txs⟩).difference = some d ∧
        round2EV d = d ∧
        ((performReconciliation ⟨some s, some e, some txs⟩).«matches» = true ↔
          (d = .fin (-1 / 100) ∨ d = .fin 0 ∨ d = .fin (1 / 100))) := by
  refine ⟨round2EV (evSub (round2EV e)
    (round2EV (evAdd s (sumOfTransactions txs)))), rfl,
    round2EV_round2EV _, ?_⟩
  exact round2EV_tolerance_iff _

end KybPdf
